import Mathlib

/-!
Shallow embedding of the IoC service container from
src/src/container/IoCContainer.ts, together with theorems checking the
specification claims about registration, resolution lifetimes, cycle
detection and disposal.

Factories in the source are arbitrary closures that receive the container
and may call back into resolve; they are deep-embedded here as a small
program type.  Machine-observable effects that the source realises through
JavaScript object identity and closure state are made explicit:
allocation ids for object identity, a per-service invocation counter for
"the factory ran k times", and a log of dispose-hook invocations.
-/

namespace IoCModel

/-- Lifetime policies, mirroring the ServiceLifetime enum of the source. -/
inductive ServiceLifetime
  | singleton
  | scoped
  | transient
deriving DecidableEq

/-- Disposal capability an instance object may expose: no dispose method,
a dispose method that returns normally, or one that throws. -/
inductive DisposeHook
  | noHook
  | cleanHook
  | throwingHook
deriving DecidableEq

/-- Runtime values produced by factories.  Objects carry an allocation id
(reference identity) and a dispose capability; the other constructors
model the JavaScript primitives, which may be falsy. -/
inductive Value
  | vUndefined
  | vNull
  | vBool (b : Bool)
  | vNum (n : Int)
  | vStr (s : String)
  | vObj (id : Nat) (hook : DisposeHook)
deriving DecidableEq

/-- JavaScript truthiness of a value, as used by the source in
checks such as `if (!registration.instance)`. -/
def truthy : Value → Bool
  | .vUndefined => false
  | .vNull => false
  | .vBool b => b
  | .vNum n => decide (n ≠ 0)
  | .vStr s => decide (s ≠ "")
  | .vObj _ _ => true

/-- Errors raised by the container.  The source throws plain Error objects
whose messages identify the kind; they are modelled structurally.
constructionFailed wraps the inner error exactly as the string
interpolation in createInstance does.  typeError models the TypeError a
property access on null/undefined raises.  outOfFuel is an artefact of
the fuel-indexed interpreter, reachable only when nesting exceeds fuel. -/
inductive CMSError
  | notRegistered (name : String)
  | duplicateService (name : String)
  | circularDependency (cycle : List String)
  | constructionFailed (name : String) (inner : CMSError)
  | userError (msg : String)
  | disposeError (id : Nat)
  | typeError
  | outOfFuel
deriving DecidableEq

deriving instance DecidableEq for Except

/-- Deep embedding of factory functions: a factory may return a constant
value, allocate a fresh object, throw, resolve a dependency from the
container before continuing, or behave one way on its first invocation
and another way afterwards (a stateful closure). -/
inductive Factory
  | ret (v : Value)
  | fresh (hook : DisposeHook)
  | fthrow (msg : String)
  | seqResolve (dep : String) (rest : Factory)
  | onCall (first : Factory) (later : Factory)
deriving DecidableEq

/-- One entry of the services map (interface ServiceRegistration in the
source).  The field named instance in the source is named inst here
because instance is a Lean keyword; absence models undefined. -/
structure ServiceRegistration where
  factory : Factory
  lifetime : ServiceLifetime
  inst : Option Value
  dependencies : List String
deriving DecidableEq

/-- One node of the (write-only) dependency graph kept by the source. -/
structure DependencyNode where
  name : String
  dependencies : List String
  visited : Bool
  inStack : Bool
deriving DecidableEq

/-- The mutable state of one IoCContainer.  services, scopedInstances and
dependencyGraph are insertion-ordered maps (JavaScript Map), modelled as
association lists; resolutionStack is an insertion-ordered set
(JavaScript Set).  nextId, factoryCalls and hookInvocations are the
explicit renderings of object allocation, factory closure invocation and
dispose-hook invocation. -/
structure ContainerState where
  services : List (String × ServiceRegistration)
  scopedInstances : List (String × Value)
  dependencyGraph : List (String × DependencyNode)
  resolutionStack : List String
  nextId : Nat
  factoryCalls : List (String × Nat)
  hookInvocations : List Nat
deriving DecidableEq

/-- The state of a freshly constructed container. -/
def initState : ContainerState :=
  ⟨[], [], [], [], 0, [], []⟩

/-- Lookup in an insertion-ordered association list (Map.get). -/
def lookupA {α : Type} : List (String × α) → String → Option α
  | [], _ => none
  | (k, v) :: rest, key => if k = key then some v else lookupA rest key

/-- Key-presence test (Map.has). -/
def hasA {α : Type} (m : List (String × α)) (key : String) : Bool :=
  (lookupA m key).isSome

/-- Map.set: overwrite in place when the key is present, else append,
preserving insertion order. -/
def setA {α : Type} : List (String × α) → String → α → List (String × α)
  | [], key, v => [(key, v)]
  | (k, w) :: rest, key, v =>
    if k = key then (k, v) :: rest else (k, w) :: setA rest key v

/-- Membership in an insertion-ordered set of strings (Set.has). -/
def memS : List String → String → Bool
  | [], _ => false
  | y :: rest, x => if y = x then true else memS rest x

/-- Set.delete: remove the (unique) occurrence of an element. -/
def delS : List String → String → List String
  | [], _ => []
  | y :: rest, x => if y = x then rest else y :: delS rest x

/-- Number of times the factory registered under a name has run so far. -/
def getCount (st : ContainerState) (name : String) : Nat :=
  (lookupA st.factoryCalls name).getD 0

/-- Interpret a factory body.  resolveFn is the container re-entry the
closure received; prev is the number of earlier invocations of this
closure, which onCall branches on. -/
def interpFactory (resolveFn : ContainerState → String → ContainerState × Except CMSError Value)
    (st : ContainerState) (prev : Nat) :
    Factory → ContainerState × Except CMSError Value
  | .ret v => (st, .ok v)
  | .fresh hook => ({st with nextId := st.nextId + 1}, .ok (.vObj st.nextId hook))
  | .fthrow msg => (st, .error (.userError msg))
  | .seqResolve dep rest =>
    match resolveFn st dep with
    | (st1, .error e) => (st1, .error e)
    | (st1, .ok _) => interpFactory resolveFn st1 prev rest
  | .onCall first later =>
    if prev = 0 then interpFactory resolveFn st prev first
    else interpFactory resolveFn st prev later

/-- IoCContainer.createInstance: invoke the registration factory, and
wrap any error it throws (including errors propagating out of nested
resolve calls inside the factory body) as a construction failure naming
the service.  The invocation counter is bumped at entry. -/
def createInstance (resolveFn : ContainerState → String → ContainerState × Except CMSError Value)
    (st : ContainerState) (name : String) (factory : Factory) :
    ContainerState × Except CMSError Value :=
  let st1 : ContainerState :=
    {st with factoryCalls := setA st.factoryCalls name (getCount st name + 1)}
  match interpFactory resolveFn st1 (getCount st name) factory with
  | (st2, .ok v) => (st2, .ok v)
  | (st2, .error e) => (st2, .error (.constructionFailed name e))

/-- One layer of IoCContainer.resolve, parameterised by the function used
for nested resolve calls made inside factory bodies.  Mirrors the source
line by line: unknown-name check, then resolution-stack cycle check, then
the switch on the lifetime.  Note that the source has no try/finally: on
the exception path the name pushed onto the resolution stack is not
removed. -/
def resolveStep (resolveFn : ContainerState → String → ContainerState × Except CMSError Value)
    (st : ContainerState) (name : String) : ContainerState × Except CMSError Value :=
  match lookupA st.services name with
  | none => (st, .error (.notRegistered name))
  | some registration =>
    if memS st.resolutionStack name then
      (st, .error (.circularDependency (st.resolutionStack ++ [name])))
    else
      match registration.lifetime with
      | .singleton =>
        match registration.inst with
        | some v =>
          if truthy v then (st, .ok v)
          else
            let st1 : ContainerState :=
              {st with resolutionStack := st.resolutionStack ++ [name]}
            match createInstance resolveFn st1 name registration.factory with
            | (st2, .error e) => (st2, .error e)
            | (st2, .ok w) =>
              let reg2 : ServiceRegistration := {registration with inst := some w}
              let st3 : ContainerState :=
                {st2 with services := setA st2.services name reg2}
              ({st3 with resolutionStack := delS st3.resolutionStack name}, .ok w)
        | none =>
          let st1 : ContainerState :=
            {st with resolutionStack := st.resolutionStack ++ [name]}
          match createInstance resolveFn st1 name registration.factory with
          | (st2, .error e) => (st2, .error e)
          | (st2, .ok w) =>
            let reg2 : ServiceRegistration := {registration with inst := some w}
            let st3 : ContainerState :=
              {st2 with services := setA st2.services name reg2}
            ({st3 with resolutionStack := delS st3.resolutionStack name}, .ok w)
      | .scoped =>
        match lookupA st.scopedInstances name with
        | some v => (st, .ok v)
        | none =>
          let st1 : ContainerState :=
            {st with resolutionStack := st.resolutionStack ++ [name]}
          match createInstance resolveFn st1 name registration.factory with
          | (st2, .error e) => (st2, .error e)
          | (st2, .ok w) =>
            let st3 : ContainerState :=
              {st2 with scopedInstances := setA st2.scopedInstances name w}
            ({st3 with resolutionStack := delS st3.resolutionStack name}, .ok w)
      | .transient =>
        let st1 : ContainerState :=
          {st with resolutionStack := st.resolutionStack ++ [name]}
        match createInstance resolveFn st1 name registration.factory with
        | (st2, .error e) => (st2, .error e)
        | (st2, .ok w) =>
          ({st2 with resolutionStack := delS st2.resolutionStack name}, .ok w)

/-- IoCContainer.resolve, fuel-indexed: fuel bounds the nesting depth of
resolve calls made from factory bodies; each nesting level peels one unit. -/
def resolve : Nat → ContainerState → String → ContainerState × Except CMSError Value
  | 0, st, _ => (st, .error .outOfFuel)
  | fuel + 1, st, name => resolveStep (resolve fuel) st name

/-- IoCContainer.extractDependencies: the source is a stub that always
returns the empty list. -/
def extractDependencies (_factory : Factory) : List String := []

/-- IoCContainer.register: reject an already-registered name, otherwise
append the registration and update the dependency graph.  The source has
no emptiness check on the name.  (The service.registered event emission
has no effect on container state and is not modelled.) -/
def register (st : ContainerState) (name : String) (factory : Factory)
    (lifetime : ServiceLifetime) : ContainerState × Except CMSError Unit :=
  if hasA st.services name then
    (st, .error (.duplicateService name))
  else
    let dependencies := extractDependencies factory
    ({st with
        services := st.services ++ [(name, ⟨factory, lifetime, none, dependencies⟩)],
        dependencyGraph :=
          setA st.dependencyGraph name ⟨name, dependencies, false, false⟩},
      .ok ())

/-- IoCContainer.isRegistered. -/
def isRegistered (st : ContainerState) (name : String) : Bool :=
  hasA st.services name

/-- IoCContainer.getServiceInfo: the lifetime and dependency list of a
registration, or none when the name is not registered.  Total: no throw. -/
def getServiceInfo (st : ContainerState) (name : String) :
    Option (ServiceLifetime × List String) :=
  match lookupA st.services name with
  | none => none
  | some registration => some (registration.lifetime, registration.dependencies)

/-- IoCContainer.getRegisteredServices. -/
def getRegisteredServices (st : ContainerState) : List String :=
  st.services.map (fun p => p.1)

/-- The loop of dispose() over singleton registrations.  The source runs
`if (registration.instance && typeof registration.instance.dispose ===
'function') registration.instance.dispose()`: a falsy or absent instance
is skipped by short-circuit, a truthy primitive has no dispose property,
and only objects can carry a hook.  Returns the extended invocation log,
and the error of the first throwing hook, if any (which aborts the loop). -/
def disposeSingletonLoop :
    List (String × ServiceRegistration) → List Nat → List Nat × Option CMSError
  | [], acc => (acc, none)
  | (_, registration) :: rest, acc =>
    match registration.inst with
    | some (.vObj id .cleanHook) => disposeSingletonLoop rest (acc ++ [id])
    | some (.vObj id .throwingHook) => (acc ++ [id], some (.disposeError id))
    | _ => disposeSingletonLoop rest acc

/-- The loop of dispose() and clearScope() over scoped instances.  The
source runs `if (typeof instance.dispose === 'function')
instance.dispose()` with no truthiness guard, so a null or undefined
scoped instance raises a TypeError on the property access. -/
def disposeScopedLoop :
    List (String × Value) → List Nat → List Nat × Option CMSError
  | [], acc => (acc, none)
  | (_, v) :: rest, acc =>
    match v with
    | .vUndefined => (acc, some .typeError)
    | .vNull => (acc, some .typeError)
    | .vObj id .cleanHook => disposeScopedLoop rest (acc ++ [id])
    | .vObj id .throwingHook => (acc ++ [id], some (.disposeError id))
    | _ => disposeScopedLoop rest acc

/-- IoCContainer.dispose: dispose singleton instances, then scoped
instances, then clear services, scoped instances and the dependency
graph.  There is no catch: a throwing hook aborts the whole method, so
the clears never run on that path.  (removeAllListeners only touches the
unmodelled event emitter.) -/
def dispose (st : ContainerState) : ContainerState × Except CMSError Unit :=
  match disposeSingletonLoop st.services st.hookInvocations with
  | (acc, some e) => ({st with hookInvocations := acc}, .error e)
  | (acc, none) =>
    match disposeScopedLoop st.scopedInstances acc with
    | (acc2, some e) => ({st with hookInvocations := acc2}, .error e)
    | (acc2, none) =>
      ({st with
          services := [],
          scopedInstances := [],
          dependencyGraph := [],
          hookInvocations := acc2},
        .ok ())

/-- IoCContainer.clearScope: dispose scoped instances, then clear the
scoped cache.  Again no catch: a throwing hook aborts before the clear. -/
def clearScope (st : ContainerState) : ContainerState × Except CMSError Unit :=
  match disposeScopedLoop st.scopedInstances st.hookInvocations with
  | (acc, some e) => ({st with hookInvocations := acc}, .error e)
  | (acc, none) =>
    ({st with scopedInstances := [], hookInvocations := acc}, .ok ())

/-- Diagnostic rendering of a cycle payload, as in the source:
the stack joined by arrows. -/
def renderCycle (cycle : List String) : String :=
  String.intercalate " -> " cycle

/-- The innermost circular-dependency payload inside a (possibly
construction-wrapped) error. -/
def innerCycle : CMSError → Option (List String)
  | .circularDependency c => some c
  | .constructionFailed _ e => innerCycle e
  | _ => none

/-- Values whose disposal in the scoped loop neither raises a TypeError
(null/undefined property access) nor throws from the hook itself. -/
def cleanlyDisposable : Value → Bool
  | .vUndefined => false
  | .vNull => false
  | .vObj _ .throwingHook => false
  | _ => true

/-!  Helper lemmas about the map and set primitives. -/

theorem lookupA_setA_ne {α : Type} (k n : String) (v : α) (h : k ≠ n) :
    ∀ l : List (String × α), lookupA (setA l k v) n = lookupA l n := by
  intro l
  induction l with
  | nil => simp [setA, lookupA, h]
  | cons p rest ih =>
    obtain ⟨pk, pv⟩ := p
    by_cases hpk : pk = k
    · subst hpk
      simp [setA, lookupA, h]
    · simp [setA, lookupA, hpk, ih]

theorem memS_append_true (m n : String) :
    ∀ l : List String, memS l n = true → memS (l ++ [m]) n = true := by
  intro l
  induction l with
  | nil => simp [memS]
  | cons y rest ih =>
    intro h
    by_cases hy : y = n
    · simp [memS, hy]
    · simp [memS, hy] at h ⊢
      exact ih h

theorem memS_append_self (n : String) :
    ∀ l : List String, memS (l ++ [n]) n = true := by
  intro l
  induction l with
  | nil => simp [memS]
  | cons y rest ih =>
    by_cases hy : y = n <;> simp [memS, hy, ih]

theorem memS_delS_ne (m n : String) (h : m ≠ n) :
    ∀ l : List String, memS (delS l m) n = memS l n := by
  intro l
  induction l with
  | nil => simp [delS]
  | cons y rest ih =>
    by_cases hy : y = m
    · subst hy
      simp [delS, memS, h]
    · simp [delS, memS, hy, ih]

theorem delS_append_not_mem (n : String) :
    ∀ l : List String, memS l n = false → delS (l ++ [n]) n = l := by
  intro l
  induction l with
  | nil => intro _; simp [delS]
  | cons y rest ih =>
    intro h
    by_cases hy : y = n
    · subst hy
      simp [memS] at h
    · simp [memS, hy] at h
      simp [delS, hy, ih h]

theorem ne_of_memS_true_false (l : List String) (m n : String)
    (h1 : memS l n = true) (h2 : memS l m = false) : m ≠ n := by
  intro he
  subst he
  rw [h1] at h2
  exact Bool.noConfusion h2

theorem lookupA_setA_self {α : Type} (k : String) (v : α) :
    ∀ l : List (String × α), lookupA (setA l k v) k = some v := by
  intro l
  induction l with
  | nil => simp [setA, lookupA]
  | cons p rest ih =>
    obtain ⟨pk, pv⟩ := p
    by_cases hpk : pk = k
    · subst hpk
      simp [setA, lookupA]
    · simp [setA, lookupA, hpk, ih]

theorem disposeScopedLoop_clean :
    ∀ (l : List (String × Value)) (acc : List Nat),
      (∀ p ∈ l, cleanlyDisposable p.2 = true) →
      (disposeScopedLoop l acc).2 = none := by
  intro l
  induction l with
  | nil => intro acc _; simp [disposeScopedLoop]
  | cons p rest ih =>
    intro acc h
    obtain ⟨nm, v⟩ := p
    have hv : cleanlyDisposable v = true := h (nm, v) (List.mem_cons_self _ _)
    have hrest : ∀ q ∈ rest, cleanlyDisposable q.2 = true := by
      intro q hq
      exact h q (List.mem_cons_of_mem _ hq)
    cases v with
    | vUndefined => simp [cleanlyDisposable] at hv
    | vNull => simp [cleanlyDisposable] at hv
    | vBool b => simp [disposeScopedLoop, ih _ hrest]
    | vNum i => simp [disposeScopedLoop, ih _ hrest]
    | vStr s => simp [disposeScopedLoop, ih _ hrest]
    | vObj id hook =>
      cases hook with
      | noHook => simp [disposeScopedLoop, ih _ hrest]
      | cleanHook => simp [disposeScopedLoop, ih _ hrest]
      | throwingHook => simp [cleanlyDisposable] at hv

/-!  While a name sits on the resolution stack, no sub-computation can
invoke its factory again, cache a value under it, or modify its
registration: resolve of that very name hits the cycle check first, and
every other operation touches only other keys.  This is proved for the
whole interpreter by induction on fuel and is the engine behind the
per-call factory-invocation counting. -/

/-- The parts of the state keyed by one service name: its factory-call
counter, its scoped cache entry, and its registration. -/
def stackObs (st : ContainerState) (n : String) :
    Option Nat × Option Value × Option ServiceRegistration :=
  (lookupA st.factoryCalls n, lookupA st.scopedInstances n, lookupA st.services n)

/-- A resolution function under which a name already on the stack is
untouchable: its keyed state is preserved and it stays on the stack. -/
def PreservesUnder (n : String)
    (rf : ContainerState → String → ContainerState × Except CMSError Value) : Prop :=
  ∀ st m, memS st.resolutionStack n = true →
    stackObs ((rf st m).1) n = stackObs st n
    ∧ memS ((rf st m).1).resolutionStack n = true

theorem interpFactory_preserves (n : String)
    (rf : ContainerState → String → ContainerState × Except CMSError Value)
    (hrf : PreservesUnder n rf) :
    ∀ (fct : Factory) (st : ContainerState) (prev : Nat),
      memS st.resolutionStack n = true →
      stackObs ((interpFactory rf st prev fct).1) n = stackObs st n
      ∧ memS ((interpFactory rf st prev fct).1).resolutionStack n = true := by
  intro fct
  induction fct with
  | ret v =>
    intro st prev h
    exact ⟨rfl, h⟩
  | fresh hook =>
    intro st prev h
    exact ⟨rfl, h⟩
  | fthrow msg =>
    intro st prev h
    exact ⟨rfl, h⟩
  | seqResolve dep rest ih =>
    intro st prev h
    obtain ⟨h1, h2⟩ := hrf st dep h
    rcases hdep : rf st dep with ⟨st1, r⟩
    rw [hdep] at h1 h2
    cases r with
    | error e =>
      simp only [interpFactory, hdep]
      exact ⟨h1, h2⟩
    | ok v =>
      obtain ⟨h3, h4⟩ := ih st1 prev h2
      simp only [interpFactory, hdep]
      exact ⟨h3.trans h1, h4⟩
  | onCall first later ih1 ih2 =>
    intro st prev h
    by_cases hp : prev = 0
    · subst hp
      exact ih1 st 0 h
    · simp only [interpFactory, if_neg hp]
      exact ih2 st prev h

theorem createInstance_preserves (n : String)
    (rf : ContainerState → String → ContainerState × Except CMSError Value)
    (hrf : PreservesUnder n rf)
    (st : ContainerState) (m : String) (fct : Factory)
    (hmn : m ≠ n) (h : memS st.resolutionStack n = true) :
    stackObs ((createInstance rf st m fct).1) n = stackObs st n
    ∧ memS ((createInstance rf st m fct).1).resolutionStack n = true := by
  have hobs1 : stackObs
      {st with factoryCalls := setA st.factoryCalls m (getCount st m + 1)} n
      = stackObs st n := by
    simp [stackObs, lookupA_setA_ne m n _ hmn]
  obtain ⟨h3, h4⟩ := interpFactory_preserves n rf hrf fct
    {st with factoryCalls := setA st.factoryCalls m (getCount st m + 1)}
    (getCount st m) h
  rcases hI : interpFactory rf
      {st with factoryCalls := setA st.factoryCalls m (getCount st m + 1)}
      (getCount st m) fct with ⟨st2, r⟩
  rw [hI] at h3 h4
  cases r with
  | ok v =>
    simp only [createInstance, hI]
    exact ⟨h3.trans hobs1, h4⟩
  | error e =>
    simp only [createInstance, hI]
    exact ⟨h3.trans hobs1, h4⟩

theorem resolveStep_preserves (n : String)
    (rf : ContainerState → String → ContainerState × Except CMSError Value)
    (hrf : PreservesUnder n rf) :
    PreservesUnder n (resolveStep rf) := by
  intro st m hmem
  cases hlk : lookupA st.services m with
  | none =>
    simp only [resolveStep, hlk]
    exact ⟨trivial, hmem⟩
  | some reg =>
    by_cases hms : memS st.resolutionStack m = true
    · simp only [resolveStep, hlk, hms, if_pos rfl]
      exact ⟨rfl, hmem⟩
    · have hmsf : memS st.resolutionStack m = false := by
        cases hx : memS st.resolutionStack m
        · rfl
        · exact absurd hx hms
      have hmn : m ≠ n := ne_of_memS_true_false _ m n hmem hmsf
      have hpush : memS (st.resolutionStack ++ [m]) n = true :=
        memS_append_true m n _ hmem
      have hC := createInstance_preserves n rf hrf
        {st with resolutionStack := st.resolutionStack ++ [m]} m reg.factory hmn hpush
      rcases hCe : createInstance rf
          {st with resolutionStack := st.resolutionStack ++ [m]} m reg.factory
          with ⟨st2, r⟩
      rw [hCe] at hC
      obtain ⟨hobs, hmem2⟩ := hC
      have hobs' : stackObs st2 n = stackObs st n := by
        rw [hobs]
        simp [stackObs]
      simp only [stackObs, Prod.mk.injEq] at hobs'
      obtain ⟨hc1, hc2, hc3⟩ := hobs'
      cases hlife : reg.lifetime
      · cases hinst : reg.inst with
        | some v =>
          by_cases ht : truthy v = true
          · simp only [resolveStep, hlk, hmsf, hlife, hinst, ht,
              Bool.false_eq_true, if_false, if_true]
            exact ⟨trivial, hmem⟩
          · have htf : truthy v = false := by
              cases hx : truthy v
              · rfl
              · exact absurd hx ht
            cases r with
            | error e =>
              simp only [resolveStep, hlk, hmsf, hlife, hinst, htf, hCe,
                Bool.false_eq_true, if_false]
              exact ⟨by simp [stackObs, hc1, hc2, hc3], hmem2⟩
            | ok w =>
              simp only [resolveStep, hlk, hmsf, hlife, hinst, htf, hCe,
                Bool.false_eq_true, if_false]
              refine ⟨?_, ?_⟩
              · simp [stackObs, hc1, hc2, lookupA_setA_ne m n _ hmn, hc3]
              · simp [memS_delS_ne m n hmn]
                exact hmem2
        | none =>
          cases r with
          | error e =>
            simp only [resolveStep, hlk, hmsf, hlife, hinst, hCe,
              Bool.false_eq_true, if_false]
            exact ⟨by simp [stackObs, hc1, hc2, hc3], hmem2⟩
          | ok w =>
            simp only [resolveStep, hlk, hmsf, hlife, hinst, hCe,
              Bool.false_eq_true, if_false]
            refine ⟨?_, ?_⟩
            · simp [stackObs, hc1, hc2, lookupA_setA_ne m n _ hmn, hc3]
            · simp [memS_delS_ne m n hmn]
              exact hmem2
      · cases hsc : lookupA st.scopedInstances m with
        | some v =>
          simp only [resolveStep, hlk, hmsf, hlife, hsc, Bool.false_eq_true, if_false]
          exact ⟨trivial, hmem⟩
        | none =>
          cases r with
          | error e =>
            simp only [resolveStep, hlk, hmsf, hlife, hsc, hCe,
              Bool.false_eq_true, if_false]
            exact ⟨by simp [stackObs, hc1, hc2, hc3], hmem2⟩
          | ok w =>
            simp only [resolveStep, hlk, hmsf, hlife, hsc, hCe,
              Bool.false_eq_true, if_false]
            refine ⟨?_, ?_⟩
            · simp [stackObs, hc1, lookupA_setA_ne m n _ hmn, hc2, hc3]
            · simp [memS_delS_ne m n hmn]
              exact hmem2
      · cases r with
        | error e =>
          simp only [resolveStep, hlk, hmsf, hlife, hCe,
            Bool.false_eq_true, if_false]
          exact ⟨by simp [stackObs, hc1, hc2, hc3], hmem2⟩
        | ok w =>
          simp only [resolveStep, hlk, hmsf, hlife, hCe,
            Bool.false_eq_true, if_false]
          refine ⟨?_, ?_⟩
          · simp [stackObs, hc1, hc2, hc3]
          · simp [memS_delS_ne m n hmn]
            exact hmem2

theorem resolve_preserves (n : String) :
    ∀ fuel, PreservesUnder n (resolve fuel) := by
  intro fuel
  induction fuel with
  | zero =>
    intro st m h
    exact ⟨rfl, h⟩
  | succ fuel ih =>
    intro st m h
    exact resolveStep_preserves n (resolve fuel) ih st m h

/-!  Concrete container configurations used by the claim theorems. -/

/-- One transient service whose factory throws on its first invocation
and allocates a fresh object on every later invocation. -/
def stRetry : ContainerState :=
  (register initState "s" (.onCall (.fthrow "boom") (.fresh .noHook)) .transient).1

/-- One transient service with a fresh-object factory. -/
def stTransFresh : ContainerState :=
  (register initState "s" (.fresh .noHook) .transient).1

/-- One singleton service with a fresh-object factory. -/
def stSingFresh : ContainerState :=
  (register initState "s" (.fresh .noHook) .singleton).1

/-- One singleton service whose factory returns the falsy value
undefined on every invocation. -/
def stSingFalsy : ContainerState :=
  (register initState "s" (.ret .vUndefined) .singleton).1

/-- One scoped service with a fresh-object factory. -/
def stScopedFresh : ContainerState :=
  (register initState "s" (.fresh .noHook) .scoped).1

/-!  Claim theorems. -/

/-- C1: the spec claims that when a factory throws, resolve fails with a
construction error wrapping the original error and naming the service,
AND that the resolution tracker exit still runs on the exception path so
that an independent retry with a now-succeeding factory succeeds.  The
code satisfies the first part but not the second: there is no
try/finally, so the name stays on the resolution stack, and the retry
fails with a bogus circular-dependency error without ever invoking the
now-succeeding factory (the invocation counter stays at 1). -/
theorem claim_C1_code_bug :
    (resolve 5 stRetry "s").2
        = Except.error (CMSError.constructionFailed "s" (CMSError.userError "boom"))
    ∧ (resolve 5 stRetry "s").1.resolutionStack = ["s"]
    ∧ (resolve 5 (resolve 5 stRetry "s").1 "s").2
        = Except.error (CMSError.circularDependency ["s", "s"])
    ∧ getCount (resolve 5 (resolve 5 stRetry "s").1 "s").1 "s" = 1 := by
  decide

/-- C2 counterexample: the claim says that after dispose() every
subsequent register call fails.  In the code dispose() merely clears the
registries, so re-registering a previously registered name after
dispose() succeeds. -/
theorem claim_C2_counterexample :
    (register (dispose stTransFresh).1 "s" (Factory.fresh DisposeHook.noHook)
        ServiceLifetime.transient).2 = Except.ok () := by
  decide

/-- C2 (amended): after a successful dispose() all registrations and
caches are cleared, so every resolve of any name fails with a
not-registered error and isRegistered is false everywhere, and a repeated
dispose() is an idempotent no-op; but there is no Disposed state: any
subsequent register call succeeds, so the container is reusable rather
than unusable. -/
theorem claim_C2_amended (st : ContainerState) (h : (dispose st).2 = Except.ok ()) :
    (∀ name, isRegistered (dispose st).1 name = false)
    ∧ (∀ name fuel, resolve (fuel + 1) (dispose st).1 name
        = ((dispose st).1, Except.error (CMSError.notRegistered name)))
    ∧ dispose (dispose st).1 = ((dispose st).1, Except.ok ())
    ∧ (∀ name factory lifetime,
        (register (dispose st).1 name factory lifetime).2 = Except.ok ()) := by
  rcases h1 : disposeSingletonLoop st.services st.hookInvocations with ⟨acc, oe⟩
  cases oe with
  | some e =>
    simp only [dispose, h1] at h
    exact Except.noConfusion h
  | none =>
    rcases h2 : disposeScopedLoop st.scopedInstances acc with ⟨acc2, oe2⟩
    cases oe2 with
    | some e =>
      simp only [dispose, h1, h2] at h
      exact Except.noConfusion h
    | none =>
      have hd : (dispose st).1
          = {st with
              services := [],
              scopedInstances := [],
              dependencyGraph := [],
              hookInvocations := acc2} := by
        simp only [dispose, h1, h2]
      rw [hd]
      refine ⟨fun name => rfl, fun name fuel => rfl, rfl,
        fun name factory lifetime => rfl⟩

/-- C2 witness: instantiating the amended claim at a concrete container. -/
theorem claim_C2_witness :
    (register (dispose stTransFresh).1 "z" (Factory.ret Value.vNull)
        ServiceLifetime.transient).2 = Except.ok () :=
  (claim_C2_amended stTransFresh (by decide)).2.2.2 "z" (Factory.ret Value.vNull)
    ServiceLifetime.transient

/-- C6 counterexample: the claim says register fails if and only if the
name is empty or already registered.  The code has no emptiness check:
registering the empty name in a fresh container succeeds. -/
theorem claim_C6_counterexample :
    (register initState "" (Factory.ret Value.vNull) ServiceLifetime.transient).2
      = Except.ok () := by
  decide

/-- C6 (amended): register fails if and only if the name is already
registered (the empty name is accepted); a duplicate registration fails
with a duplicate-service error, leaving the container state completely
unchanged (so the first registration remains intact and resolvable),
while a fresh name is appended to the registry. -/
theorem claim_C6_amended (st : ContainerState) (name : String) (factory : Factory)
    (lifetime : ServiceLifetime) :
    ((register st name factory lifetime).2
        = Except.error (CMSError.duplicateService name)
      ↔ isRegistered st name = true)
    ∧ (isRegistered st name = true →
        register st name factory lifetime
          = (st, Except.error (CMSError.duplicateService name)))
    ∧ (isRegistered st name = false →
        (register st name factory lifetime).2 = Except.ok ()
        ∧ (register st name factory lifetime).1.services
            = st.services ++ [(name, ⟨factory, lifetime, none, []⟩)]
        ∧ (register st name factory lifetime).1.scopedInstances
            = st.scopedInstances) := by
  by_cases h : hasA st.services name = true
  · simp [register, isRegistered, h]
  · have hf : hasA st.services name = false := by
      cases hx : hasA st.services name
      · rfl
      · exact absurd hx h
    simp [register, isRegistered, hf, extractDependencies]

/-- C6 witness: a duplicate registration of an occupied name fails and
leaves the container unchanged. -/
theorem claim_C6_witness :
    register stTransFresh "s" (Factory.ret Value.vNull) ServiceLifetime.transient
      = (stTransFresh, Except.error (CMSError.duplicateService "s")) :=
  (claim_C6_amended stTransFresh "s" (Factory.ret Value.vNull)
    ServiceLifetime.transient).2.1 (by decide)

/-- C10: getServiceInfo is total (it never throws): it returns the
registered lifetime and dependency list exactly when the name is
registered, and none exactly when isRegistered is false. -/
theorem claim_C10 (st : ContainerState) (name : String) :
    (getServiceInfo st name = none ↔ isRegistered st name = false)
    ∧ (∀ reg, lookupA st.services name = some reg →
        getServiceInfo st name = some (reg.lifetime, reg.dependencies)) := by
  constructor
  · cases h : lookupA st.services name <;>
      simp [getServiceInfo, isRegistered, hasA, h]
  · intro reg h
    simp [getServiceInfo, h]

/-- C10 witness: the info of a concrete scoped registration. -/
theorem claim_C10_witness :
    getServiceInfo stScopedFresh "s" = some (ServiceLifetime.scoped, []) :=
  (claim_C10 stScopedFresh "s").2
    ⟨Factory.fresh DisposeHook.noHook, ServiceLifetime.scoped, none, []⟩ (by decide)

/-- Two scoped services registered and resolved in one scope: instance
object 5 carries a throwing dispose hook, instance object 6 a clean one;
iteration order of the scoped cache is a before b. -/
def stHooksReg : ContainerState :=
  (register (register initState "a" (.ret (.vObj 5 .throwingHook)) .scoped).1
    "b" (.ret (.vObj 6 .cleanHook)) .scoped).1

/-- The state after resolving both scoped services of stHooksReg. -/
def stHooks : ContainerState :=
  (resolve 3 (resolve 3 stHooksReg "a").1 "b").1

/-- C3 counterexample: the claim says a throwing dispose hook is swallowed
(logged, never propagated) and disposal of the remaining instances still
proceeds.  In the code there is no try/catch: clearScope propagates the
first hook error, the second instance's hook is never invoked, and the
scoped cache is not cleared. -/
theorem claim_C3_counterexample :
    (clearScope stHooks).2 = Except.error (CMSError.disposeError 5)
    ∧ (clearScope stHooks).1.hookInvocations = [5]
    ∧ (clearScope stHooks).1.scopedInstances
        = [("a", Value.vObj 5 DisposeHook.throwingHook),
           ("b", Value.vObj 6 DisposeHook.cleanHook)] := by
  decide

/-- C3 (amended): during dispose() and clearScope() the dispose hooks are
invoked with no error isolation: as soon as one owned instance's hook
throws, the error propagates to the caller, the hooks of instances later
in iteration order are not invoked, and the caches and registrations are
not cleared (only the invocation log of the throwing hook is extended). -/
theorem claim_C3_amended :
    (∀ (st : ContainerState) (n : String) (i : Nat) (rest : List (String × Value)),
        st.scopedInstances = (n, Value.vObj i DisposeHook.throwingHook) :: rest →
        clearScope st
          = ({st with hookInvocations := st.hookInvocations ++ [i]},
              Except.error (CMSError.disposeError i)))
    ∧ (∀ (st : ContainerState) (n : String) (reg : ServiceRegistration) (i : Nat)
          (rest : List (String × ServiceRegistration)),
        st.services = (n, reg) :: rest →
        reg.inst = some (Value.vObj i DisposeHook.throwingHook) →
        dispose st
          = ({st with hookInvocations := st.hookInvocations ++ [i]},
              Except.error (CMSError.disposeError i))) := by
  constructor
  · intro st n i rest h
    simp only [clearScope, h, disposeScopedLoop]
  · intro st n reg i rest h hinst
    simp only [dispose, h, disposeSingletonLoop, hinst]

/-- C3 witness: the amended claim instantiated at the two-instance scope. -/
theorem claim_C3_witness :
    clearScope stHooks
      = ({stHooks with hookInvocations := stHooks.hookInvocations ++ [5]},
          Except.error (CMSError.disposeError 5)) :=
  claim_C3_amended.1 stHooks "a" 5
    [("b", Value.vObj 6 DisposeHook.cleanHook)] (by decide)

/-- C5 counterexample: the claim says a singleton factory executes
exactly once across any number of resolve calls, for every factory.  The
code caches by truthiness, so a singleton factory returning the falsy
value undefined is re-executed on every resolve: after two resolves the
invocation counter is 2. -/
theorem claim_C5_counterexample :
    (resolve 3 stSingFalsy "s").2 = Except.ok Value.vUndefined
    ∧ getCount (resolve 3 (resolve 3 stSingFalsy "s").1 "s").1 "s" = 2 := by
  decide

/-- C5 (amended): a singleton whose cached instance is truthy is returned
as-is by resolve with the container state completely unchanged (so the
factory does not re-run and the resolution tracker is not entered); with
a fresh-object factory two resolves return the identical instance and the
factory runs exactly once; but caching is decided by truthiness, so a
factory constructing a falsy value is re-executed on every resolve. -/
theorem claim_C5_amended :
    (∀ (fuel : Nat) (st : ContainerState) (n : String)
        (reg : ServiceRegistration) (v : Value),
        lookupA st.services n = some reg →
        reg.lifetime = ServiceLifetime.singleton →
        reg.inst = some v →
        truthy v = true →
        memS st.resolutionStack n = false →
        resolve (fuel + 1) st n = (st, Except.ok v))
    ∧ ((resolve 3 stSingFresh "s").2 = Except.ok (Value.vObj 0 DisposeHook.noHook)
        ∧ resolve 3 (resolve 3 stSingFresh "s").1 "s"
            = ((resolve 3 stSingFresh "s").1,
                Except.ok (Value.vObj 0 DisposeHook.noHook))
        ∧ getCount (resolve 3 stSingFresh "s").1 "s" = 1)
    ∧ ((resolve 3 stSingFalsy "s").2 = Except.ok Value.vUndefined
        ∧ (resolve 3 (resolve 3 stSingFalsy "s").1 "s").2 = Except.ok Value.vUndefined
        ∧ getCount (resolve 3 (resolve 3 stSingFalsy "s").1 "s").1 "s" = 2) := by
  refine ⟨?_, by decide, by decide⟩
  intro fuel st n reg v hlk hlife hinst ht hm
  show resolveStep (resolve fuel) st n = (st, Except.ok v)
  simp only [resolveStep, hlk, hm, hlife, hinst, ht,
    Bool.false_eq_true, if_false, if_true]

/-- C5 witness: the general cached-truthy fast path instantiated after a
first resolution of the fresh-object singleton. -/
theorem claim_C5_witness :
    resolve 1 (resolve 3 stSingFresh "s").1 "s"
      = ((resolve 3 stSingFresh "s").1,
          Except.ok (Value.vObj 0 DisposeHook.noHook)) :=
  claim_C5_amended.1 0 (resolve 3 stSingFresh "s").1 "s"
    ⟨Factory.fresh DisposeHook.noHook, ServiceLifetime.singleton,
      some (Value.vObj 0 DisposeHook.noHook), []⟩
    (Value.vObj 0 DisposeHook.noHook) (by decide) rfl rfl rfl (by decide)

/-- C9: the scoped cache is keyed by presence (Map.has), not truthiness:
a scoped factory returning any falsy value still has its result cached,
a second same-scope resolve returns that cached falsy value with the
container state unchanged, and the factory has run exactly once. -/
theorem claim_C9 (v : Value) (hfalsy : truthy v = false) :
    (resolve 3 (register initState "s" (.ret v) .scoped).1 "s").2 = Except.ok v
    ∧ resolve 3 (resolve 3 (register initState "s" (.ret v) .scoped).1 "s").1 "s"
        = ((resolve 3 (register initState "s" (.ret v) .scoped).1 "s").1,
            Except.ok v)
    ∧ getCount (resolve 3 (register initState "s" (.ret v) .scoped).1 "s").1 "s"
        = 1 :=
  ⟨rfl, rfl, rfl⟩

/-- C9 witness: the falsy value undefined is cached and returned. -/
theorem claim_C9_witness :
    (resolve 3 (register initState "s" (.ret .vUndefined) .scoped).1 "s").2
      = Except.ok Value.vUndefined :=
  (claim_C9 Value.vUndefined rfl).1

/-- A registered chain with a prefix before the cycle: D resolves A, A
resolves B, and B resolves A again. -/
def stCycle : ContainerState :=
  (register (register (register initState
    "D" (.seqResolve "A" (.fresh .noHook)) .transient).1
    "A" (.seqResolve "B" (.fresh .noHook)) .transient).1
    "B" (.seqResolve "A" (.fresh .noHook)) .transient).1

/-- An acyclic chain: A resolves B, B resolves C, C just allocates. -/
def stChain : ContainerState :=
  (register (register (register initState
    "A" (.seqResolve "B" (.fresh .noHook)) .transient).1
    "B" (.seqResolve "C" (.fresh .noHook)) .transient).1
    "C" (.fresh .noHook) .transient).1

/-- C4 counterexample: the claim says the cycle payload is the ordered
list of names from the first occurrence of the re-entered name through
the re-entry.  The code joins the ENTIRE resolution stack: for the chain
D resolves A resolves B resolves A the payload is D, A, B, A (the prefix
D from the root is included), not A, B, A. -/
theorem claim_C4_counterexample :
    (resolve 10 stCycle "D").2
        = Except.error (CMSError.constructionFailed "D"
            (CMSError.constructionFailed "A"
              (CMSError.constructionFailed "B"
                (CMSError.circularDependency ["D", "A", "B", "A"]))))
    ∧ innerCycle (CMSError.constructionFailed "D"
          (CMSError.constructionFailed "A"
            (CMSError.constructionFailed "B"
              (CMSError.circularDependency ["D", "A", "B", "A"]))))
        = some ["D", "A", "B", "A"]
    ∧ (["D", "A", "B", "A"] : List String) ≠ ["A", "B", "A"] := by
  decide

/-- C4 (amended): a resolve of a name already under construction fails
with a circular-dependency error whose payload is the whole resolution
stack from the root of the chain followed by the re-entered name (not
merely from the first occurrence of that name), rendered with arrows;
outer frames wrap that error in construction failures as it unwinds.  An
acyclic chain resolves successfully, each factory running exactly once,
and the resolution stack drains completely. -/
theorem claim_C4_amended :
    (∀ (fuel : Nat) (st : ContainerState) (n : String) (reg : ServiceRegistration),
        lookupA st.services n = some reg →
        memS st.resolutionStack n = true →
        resolve (fuel + 1) st n
          = (st, Except.error (CMSError.circularDependency
              (st.resolutionStack ++ [n]))))
    ∧ ((resolve 10 stCycle "D").2
          = Except.error (CMSError.constructionFailed "D"
              (CMSError.constructionFailed "A"
                (CMSError.constructionFailed "B"
                  (CMSError.circularDependency ["D", "A", "B", "A"]))))
        ∧ renderCycle ["D", "A", "B", "A"] = "D -> A -> B -> A")
    ∧ ((resolve 10 stChain "A").2 = Except.ok (Value.vObj 2 DisposeHook.noHook)
        ∧ getCount (resolve 10 stChain "A").1 "A" = 1
        ∧ getCount (resolve 10 stChain "A").1 "B" = 1
        ∧ getCount (resolve 10 stChain "A").1 "C" = 1
        ∧ (resolve 10 stChain "A").1.resolutionStack = []) := by
  refine ⟨?_, by decide, by decide⟩
  intro fuel st n reg hlk hm
  show resolveStep (resolve fuel) st n = _
  simp only [resolveStep, hlk, hm, if_true]

/-- C4 witness: the general re-entry fact at the container whose stack
still holds the name leaked by a failed construction. -/
theorem claim_C4_witness :
    resolve 1 (resolve 5 stRetry "s").1 "s"
      = ((resolve 5 stRetry "s").1,
          Except.error (CMSError.circularDependency
            ((resolve 5 stRetry "s").1.resolutionStack ++ ["s"]))) :=
  claim_C4_amended.1 0 (resolve 5 stRetry "s").1 "s"
    ⟨Factory.onCall (Factory.fthrow "boom") (Factory.fresh DisposeHook.noHook),
      ServiceLifetime.transient, none, []⟩
    (by decide) (by decide)

/-- C7: scoped lifetime.  A scoped service with a cache entry is returned
from the scoped cache with the container state unchanged (so the factory
does not re-run); clearScope, when every scoped instance disposes
cleanly, empties only the scoped cache and leaves the registrations (and
therefore the singleton caches stored inside them) untouched; concretely,
two same-scope resolves return the identical instance with one factory
run, and after clearScope a new resolve returns a new, distinct instance
with a second factory run. -/
theorem claim_C7 :
    (∀ (fuel : Nat) (st : ContainerState) (n : String)
        (reg : ServiceRegistration) (v : Value),
        lookupA st.services n = some reg →
        reg.lifetime = ServiceLifetime.scoped →
        lookupA st.scopedInstances n = some v →
        memS st.resolutionStack n = false →
        resolve (fuel + 1) st n = (st, Except.ok v))
    ∧ (∀ st : ContainerState,
        (∀ p ∈ st.scopedInstances, cleanlyDisposable p.2 = true) →
        (clearScope st).2 = Except.ok ()
        ∧ (clearScope st).1.services = st.services
        ∧ (clearScope st).1.scopedInstances = [])
    ∧ ((resolve 3 stScopedFresh "s").2 = Except.ok (Value.vObj 0 DisposeHook.noHook)
        ∧ resolve 3 (resolve 3 stScopedFresh "s").1 "s"
            = ((resolve 3 stScopedFresh "s").1,
                Except.ok (Value.vObj 0 DisposeHook.noHook))
        ∧ getCount (resolve 3 stScopedFresh "s").1 "s" = 1
        ∧ (clearScope (resolve 3 stScopedFresh "s").1).1.services
            = (resolve 3 stScopedFresh "s").1.services
        ∧ (clearScope (resolve 3 stScopedFresh "s").1).1.scopedInstances = []
        ∧ (resolve 3 (clearScope (resolve 3 stScopedFresh "s").1).1 "s").2
            = Except.ok (Value.vObj 1 DisposeHook.noHook)
        ∧ getCount (resolve 3 (clearScope (resolve 3 stScopedFresh "s").1).1 "s").1 "s"
            = 2
        ∧ (Value.vObj 1 DisposeHook.noHook) ≠ (Value.vObj 0 DisposeHook.noHook)) := by
  refine ⟨?_, ?_, by decide⟩
  · intro fuel st n reg v hlk hlife hsc hm
    show resolveStep (resolve fuel) st n = (st, Except.ok v)
    simp only [resolveStep, hlk, hm, hlife, hsc, Bool.false_eq_true, if_false]
  · intro st hclean
    have hnone : (disposeScopedLoop st.scopedInstances st.hookInvocations).2 = none :=
      disposeScopedLoop_clean _ _ hclean
    rcases hl : disposeScopedLoop st.scopedInstances st.hookInvocations with ⟨acc, oe⟩
    rw [hl] at hnone
    simp only at hnone
    subst hnone
    simp only [clearScope, hl]
    refine ⟨?_, ?_, ?_⟩ <;> simp

/-- C7 witness: the cache-hit fast path after a first scoped resolution. -/
theorem claim_C7_witness :
    resolve 1 (resolve 3 stScopedFresh "s").1 "s"
      = ((resolve 3 stScopedFresh "s").1,
          Except.ok (Value.vObj 0 DisposeHook.noHook)) :=
  claim_C7.1 0 (resolve 3 stScopedFresh "s").1 "s"
    ⟨Factory.fresh DisposeHook.noHook, ServiceLifetime.scoped, none, []⟩
    (Value.vObj 0 DisposeHook.noHook) (by decide) rfl (by decide) (by decide)

/-- Effects of one createInstance call made with the service name already
on the resolution stack: the invocation counter of that name is bumped by
exactly one, and whatever the factory body does (including nested resolve
calls of other services), neither the scoped cache entry nor the
registration of that name can change. -/
theorem createInstance_effects (n : String) (fuel : Nat) (st : ContainerState)
    (fct : Factory) (h : memS st.resolutionStack n = true) :
    getCount ((createInstance (resolve fuel) st n fct).1) n = getCount st n + 1
    ∧ lookupA ((createInstance (resolve fuel) st n fct).1).scopedInstances n
        = lookupA st.scopedInstances n
    ∧ lookupA ((createInstance (resolve fuel) st n fct).1).services n
        = lookupA st.services n := by
  have hpres := interpFactory_preserves n (resolve fuel) (resolve_preserves n fuel) fct
    {st with factoryCalls := setA st.factoryCalls n (getCount st n + 1)}
    (getCount st n) h
  rcases hI : interpFactory (resolve fuel)
      {st with factoryCalls := setA st.factoryCalls n (getCount st n + 1)}
      (getCount st n) fct with ⟨st2, r⟩
  rw [hI] at hpres
  obtain ⟨hobs, _⟩ := hpres
  simp only [stackObs, Prod.mk.injEq] at hobs
  obtain ⟨hc1, hc2, hc3⟩ := hobs
  cases r with
  | ok v =>
    simp only [createInstance, hI]
    exact ⟨by simp [getCount, hc1, lookupA_setA_self], hc2, hc3⟩
  | error e =>
    simp only [createInstance, hI]
    exact ⟨by simp [getCount, hc1, lookupA_setA_self], hc2, hc3⟩

/-- C8: transient lifetime.  Every resolve of a transient service invokes
its factory exactly once per call (the invocation counter rises by one no
matter what the factory does or whether it fails), and the result is
never cached: the scoped cache entry and the registration of the name are
unchanged.  With a fresh-object factory the call returns the object
allocated at the current allocation counter and advances it, so two calls
return two distinct instances. -/
theorem claim_C8 :
    (∀ (fuel : Nat) (st : ContainerState) (n : String) (reg : ServiceRegistration),
        lookupA st.services n = some reg →
        reg.lifetime = ServiceLifetime.transient →
        memS st.resolutionStack n = false →
        getCount ((resolve (fuel + 1) st n).1) n = getCount st n + 1
        ∧ lookupA ((resolve (fuel + 1) st n).1).scopedInstances n
            = lookupA st.scopedInstances n
        ∧ lookupA ((resolve (fuel + 1) st n).1).services n = some reg)
    ∧ (∀ (fuel : Nat) (st : ContainerState) (n : String)
          (reg : ServiceRegistration) (hook : DisposeHook),
        lookupA st.services n = some reg →
        reg.lifetime = ServiceLifetime.transient →
        reg.factory = Factory.fresh hook →
        memS st.resolutionStack n = false →
        (resolve (fuel + 1) st n).2 = Except.ok (Value.vObj st.nextId hook)
        ∧ ((resolve (fuel + 1) st n).1).nextId = st.nextId + 1)
    ∧ ((resolve 3 stTransFresh "s").2 = Except.ok (Value.vObj 0 DisposeHook.noHook)
        ∧ (resolve 3 (resolve 3 stTransFresh "s").1 "s").2
            = Except.ok (Value.vObj 1 DisposeHook.noHook)
        ∧ getCount (resolve 3 (resolve 3 stTransFresh "s").1 "s").1 "s" = 2
        ∧ (Value.vObj 1 DisposeHook.noHook) ≠ (Value.vObj 0 DisposeHook.noHook)) := by
  refine ⟨?_, ?_, by decide⟩
  · intro fuel st n reg hlk hlife hm
    have hpush : memS
        ({st with resolutionStack := st.resolutionStack ++ [n]}).resolutionStack n
        = true := memS_append_self n st.resolutionStack
    have hCI := createInstance_effects n fuel
      {st with resolutionStack := st.resolutionStack ++ [n]} reg.factory hpush
    rcases hCe : createInstance (resolve fuel)
        {st with resolutionStack := st.resolutionStack ++ [n]} n reg.factory
        with ⟨st2, r⟩
    rw [hCe] at hCI
    obtain ⟨hg1, hg2, hg3⟩ := hCI
    have hstep : resolve (fuel + 1) st n = resolveStep (resolve fuel) st n := rfl
    rw [hstep]
    cases r with
    | error e =>
      simp only [resolveStep, hlk, hm, hlife, Bool.false_eq_true, if_false, hCe]
      exact ⟨hg1, hg2, hg3.trans hlk⟩
    | ok w =>
      simp only [resolveStep, hlk, hm, hlife, Bool.false_eq_true, if_false, hCe]
      exact ⟨hg1, hg2, hg3.trans hlk⟩
  · intro fuel st n reg hook hlk hlife hfct hm
    have hstep : resolve (fuel + 1) st n = resolveStep (resolve fuel) st n := rfl
    rw [hstep]
    simp only [resolveStep, hlk, hm, hlife, hfct, Bool.false_eq_true, if_false,
      createInstance, interpFactory]
    refine ⟨?_, ?_⟩ <;> simp

/-- C8 witness: the per-call invocation and no-caching facts at a
concrete transient registration. -/
theorem claim_C8_witness :
    getCount ((resolve 1 stTransFresh "s").1) "s" = getCount stTransFresh "s" + 1
    ∧ lookupA ((resolve 1 stTransFresh "s").1).scopedInstances "s"
        = lookupA stTransFresh.scopedInstances "s"
    ∧ lookupA ((resolve 1 stTransFresh "s").1).services "s"
        = some ⟨Factory.fresh DisposeHook.noHook, ServiceLifetime.transient,
            none, []⟩ :=
  claim_C8.1 0 stTransFresh "s"
    ⟨Factory.fresh DisposeHook.noHook, ServiceLifetime.transient, none, []⟩
    (by decide) rfl (by decide)

end IoCModel
